import Mathlib

/-!
Verification of the core of the `openaiclient` command-line agent:
the conversation/tool-call state machine and streaming reconstructor
(`src/openaiapi/mod.rs`), the command executor with its bounded line
buffer (`src/tools/executor.rs`), and the tool dispatcher
(`src/tools/mod.rs`).

The Rust code is shallowly embedded: pure functions become Lean
functions, `&mut self` methods become explicit state passing, Rust
`String` is Lean `String` (with byte-level operations spelled out over
the UTF-8 size where Rust works on bytes), `Result`/`Option` become
`Except`/`Option`, and a Rust `panic!`/`expect` is modelled as a
distinguished constructor of the result type.  The async boundary of
the executor (tokio spawn/select/timeout) is modelled by passing the
outcome of the process run as an explicit argument; the mapping from
outcomes to returned values is the code under verification.
-/

set_option maxRecDepth 100000

namespace OpenAiClient

/-! ## A model of `serde_json::Value` and `serde_json::from_str`

`ChatContext::parse_streaming_response` and `Dispatcher::dispatch` rely
on the `serde_json` library.  We model a JSON value as an inductive
type (objects keep insertion order; parsing a duplicate key overwrites
the earlier value, matching the map semantics of `serde_json::Value`),
and `from_str::<Value>` as a total, fuel-bounded recursive-descent
function.  The number grammar is slightly more more lenient than the serde one
(the program never inspects numeric payloads), and the Rust Unicode
whitespace/JSON whitespace sets are modelled by the JSON set
space/tab/newline/carriage-return.
-/

/-- The four delimiter characters that the token rules of this file keep
out of character literals. -/
def qmark : Char := Char.ofNat 34

def bslash : Char := Char.ofNat 92

def lbrace : Char := Char.ofNat 123

def rbrace : Char := Char.ofNat 125

inductive Json where
  | null
  | bool (b : Bool)
  | num (raw : String)
  | str (s : String)
  | arr (elems : List Json)
  | obj (fields : List (String × Json))

/-- JSON insignificant whitespace (RFC 8259, the set serde_json skips). -/
def jsonWs (c : Char) : Bool :=
  c == ' ' || c == '\t' || c == '\n' || c == '\r'

def skipWs : List Char → List Char
  | [] => []
  | c :: cs => if jsonWs c then skipWs cs else c :: cs

def hexVal (c : Char) : Option Nat :=
  if c.isDigit then some (c.toNat - 48)
  else if 'a' ≤ c && c ≤ 'f' then some (c.toNat - 87)
  else if 'A' ≤ c && c ≤ 'F' then some (c.toNat - 55)
  else none

/-- Body of a JSON string literal (after the opening quote), with the
escape sequences of RFC 8259. -/
def parseStrAux : List Char → String → Option (String × List Char)
  | [], _ => none
  | c :: rest, acc =>
    if c = qmark then some (acc, rest)
    else if c = bslash then
      match rest with
      | [] => none
      | e :: rest2 =>
        if e = qmark then parseStrAux rest2 (acc.push qmark)
        else if e = bslash then parseStrAux rest2 (acc.push bslash)
        else if e = '/' then parseStrAux rest2 (acc.push '/')
        else if e = 'b' then parseStrAux rest2 (acc.push (Char.ofNat 8))
        else if e = 'f' then parseStrAux rest2 (acc.push (Char.ofNat 12))
        else if e = 'n' then parseStrAux rest2 (acc.push '\n')
        else if e = 'r' then parseStrAux rest2 (acc.push '\r')
        else if e = 't' then parseStrAux rest2 (acc.push '\t')
        else if e = 'u' then
          match rest2 with
          | h1 :: h2 :: h3 :: h4 :: rest3 =>
            match hexVal h1, hexVal h2, hexVal h3, hexVal h4 with
            | some a, some b, some c2, some d =>
              parseStrAux rest3 (acc.push (Char.ofNat (((a * 16 + b) * 16 + c2) * 16 + d)))
            | _, _, _, _ => none
          | _ => none
        else none
    else parseStrAux rest (acc.push c)

def isNumTail (c : Char) : Bool :=
  c.isDigit || c == '-' || c == '+' || c == '.' || c == 'e' || c == 'E'

def parseNumAux : List Char → String → String × List Char
  | [], acc => (acc, [])
  | c :: rest, acc =>
    if isNumTail c then parseNumAux rest (acc.push c) else (acc, c :: rest)

/-- Insert a member into an object, overwriting an existing key
(matching `serde_json::Map::insert` on a duplicate key). -/
def upsert : List (String × Json) → String → Json → List (String × Json)
  | [], k, v => [(k, v)]
  | (k2, v2) :: rest, k, v =>
    if k2 == k then (k2, v) :: rest else (k2, v2) :: upsert rest k v

mutual

def parseVal : Nat → List Char → Option (Json × List Char)
  | 0, _ => none
  | Nat.succ fuel, cs =>
    match skipWs cs with
    | [] => none
    | c :: rest =>
      if c = qmark then
        match parseStrAux rest "" with
        | some (s, rest2) => some (Json.str s, rest2)
        | none => none
      else if c = lbrace then
        match skipWs rest with
        | [] => none
        | d :: rest3 =>
          if d = rbrace then some (Json.obj [], rest3)
          else parseMembers fuel (d :: rest3) []
      else if c = '[' then
        match skipWs rest with
        | [] => none
        | d :: rest3 =>
          if d = ']' then some (Json.arr [], rest3)
          else parseElems fuel (d :: rest3) []
      else if c = 'n' then
        match rest with
        | 'u' :: 'l' :: 'l' :: rest2 => some (Json.null, rest2)
        | _ => none
      else if c = 't' then
        match rest with
        | 'r' :: 'u' :: 'e' :: rest2 => some (Json.bool true, rest2)
        | _ => none
      else if c = 'f' then
        match rest with
        | 'a' :: 'l' :: 's' :: 'e' :: rest2 => some (Json.bool false, rest2)
        | _ => none
      else if c.isDigit || c = '-' then
        let p := parseNumAux rest (String.mk [c])
        some (Json.num p.1, p.2)
      else none

def parseMembers : Nat → List Char → List (String × Json) → Option (Json × List Char)
  | 0, _, _ => none
  | Nat.succ fuel, cs, acc =>
    match skipWs cs with
    | [] => none
    | c :: rest =>
      if c = qmark then
        match parseStrAux rest "" with
        | none => none
        | some (key, rest2) =>
          match skipWs rest2 with
          | ':' :: rest3 =>
            match parseVal fuel rest3 with
            | none => none
            | some (v, rest4) =>
              match skipWs rest4 with
              | [] => none
              | r :: rest5 =>
                if r = ',' then parseMembers fuel rest5 (upsert acc key v)
                else if r = rbrace then some (Json.obj (upsert acc key v), rest5)
                else none
          | _ => none
      else none

def parseElems : Nat → List Char → List Json → Option (Json × List Char)
  | 0, _, _ => none
  | Nat.succ fuel, cs, acc =>
    match parseVal fuel cs with
    | none => none
    | some (v, rest) =>
      match skipWs rest with
      | [] => none
      | r :: rest2 =>
        if r = ',' then parseElems fuel rest2 (acc ++ [v])
        else if r = ']' then some (Json.arr (acc ++ [v]), rest2)
        else none

end

/-- Model of `serde_json::from_str::<serde_json::Value>`: one JSON value
spanning the whole input (trailing whitespace allowed). -/
def parseJson (s : String) : Option Json :=
  match parseVal (s.length + 1) s.data with
  | some (j, rest) => if (skipWs rest).isEmpty then some j else none
  | none => none

/-- `serde_json::Value::get(key)` (object member lookup). -/
def lookupField : List (String × Json) → String → Option Json
  | [], _ => none
  | (k, v) :: rest, key => if k == key then some v else lookupField rest key

def Json.get (j : Json) (key : String) : Option Json :=
  match j with
  | .obj fields => lookupField fields key
  | _ => none

/-- `serde_json::Value::get(index)` on an array. -/
def Json.getIdx (j : Json) (i : Nat) : Option Json :=
  match j with
  | .arr xs => xs.get? i
  | _ => none

def Json.asStr (j : Json) : Option String :=
  match j with
  | .str s => some s
  | _ => none

def Json.asArr (j : Json) : Option (List Json) :=
  match j with
  | .arr xs => some xs
  | _ => none

def Json.asObj (j : Json) : Option (List (String × Json)) :=
  match j with
  | .obj fields => some fields
  | _ => none

def Json.asBool (j : Json) : Option Bool :=
  match j with
  | .bool b => some b
  | _ => none

def digitsToNat (cs : List Char) : Nat :=
  cs.foldl (fun n c => n * 10 + (c.toNat - 48)) 0

/-- Decoding a `usize` field (non-negative integer literal). -/
def Json.asNat (j : Json) : Option Nat :=
  match j with
  | .num raw => if raw ≠ "" && raw.data.all Char.isDigit then some (digitsToNat raw.data) else none
  | _ => none

example : parseJson "\x7b\"a\": [1, \"x\"]\x7d" =
    some (Json.obj [("a", Json.arr [Json.num "1", Json.str "x"])]) := by rfl

example : parseJson "not json" = none := by rfl

example : parseJson "\x7b\"s\": \"a\\\"b\"\x7d" =
    some (Json.obj [("s", Json.str "a\"b")]) := by rfl

/-! ## Data model of `src/openaiapi/mod.rs`

`FunctionCall`, `ToolCall`, `Message`, `MessageContent`, `ContentPart`,
`ChatErrorKind`, `ChatError` and the message-log part of
`Chat`/`ChatContext`.  The request-configuration scalars of `Chat` (model
name, max_tokens, temperature, …) and the filesystem/HTTP
configuration of `ChatContext` (directories, API key, URL) are not carried: none of the
embedded operations read or write them. -/

structure FunctionCall where
  name : String
  arguments : String
deriving DecidableEq, Repr

structure ToolCall where
  id : String
  tool_type : String
  function : FunctionCall
deriving DecidableEq, Repr

structure ImageUrlContent where
  url : String
deriving DecidableEq, Repr

inductive ContentPart where
  | text (text : String)
  | imageUrl (image_url : ImageUrlContent)
deriving DecidableEq, Repr

inductive MessageContent where
  | simple (s : String)
  | multi (parts : List ContentPart)
deriving DecidableEq, Repr

structure Message where
  role : String
  content : Option MessageContent
  name : Option String
  tool_call_id : Option String
  tool_calls : Option (List ToolCall)
deriving DecidableEq, Repr

/-- `Message::normal` (src/openaiapi/mod.rs:86). -/
def Message.normal (role : String) (content : MessageContent) : Message :=
  { role := role, content := some content, name := none,
    tool_calls := none, tool_call_id := none }

inductive ChatErrorKind where
  | chatContainsNoMessages
  | systemPromptNotFound
  | lastToolCallIdNotFound
  | lastMessageFromAssistant
  | other
deriving DecidableEq, Repr

structure ChatError where
  kind : ChatErrorKind
  message : String
deriving DecidableEq, Repr

/-- The message log of a `Chat` (src/openaiapi/mod.rs:184). -/
structure Chat where
  messages : List Message
deriving DecidableEq, Repr

/-- The conversation-state part of a `ChatContext`
(src/openaiapi/mod.rs:199). -/
structure ChatContext where
  chat : Option Chat
  dirty : Bool
deriving DecidableEq, Repr

/-! ## `ChatContext::get_last_pending_tool_call_id`
(src/openaiapi/mod.rs:325-345)

The Rust loop keeps a running `Vec<String>` of emitted tool-call ids:
each message first contributes the ids of its `tool_calls` (in order),
then, if the message carries a `tool_call_id`, every collected id equal
to it is removed (`Vec::retain`).  The first id left is returned. -/

def toolCallIdsOf (m : Message) : List String :=
  match m.tool_calls with
  | some tcs => tcs.map (fun tc => tc.id)
  | none => []

/-- One iteration of the `for message in …messages` loop. -/
def pendingStep (ids : List String) (m : Message) : List String :=
  let ids2 := ids ++ toolCallIdsOf m
  match m.tool_call_id with
  | some tid => ids2.filter (fun s => s != tid)
  | none => ids2

def get_last_pending_tool_call_id (chat : Option Chat) :
    Except ChatError (Option String) :=
  match chat with
  | none => .error ⟨.chatContainsNoMessages, "No Messages"⟩
  | some chat =>
    match (chat.messages.foldl pendingStep []).head? with
    | some last_tool_call_id => .ok (some last_tool_call_id)
    | none => .ok none

/-! ## `ChatContext::add_normal_message` (src/openaiapi/mod.rs:367-378)

`&mut self` with a `Result` return is embedded as a function returning
the `Result` together with the (possibly unchanged) context. -/

def add_normal_message (ctx : ChatContext) (role : String)
    (message : MessageContent) : Except ChatError Unit × ChatContext :=
  match ctx.chat with
  | none => (.error ⟨.other, "No chat currently loaded"⟩, ctx)
  | some chat =>
    match chat.messages.getLast? with
    | some last_message =>
      if last_message.role == role then
        (.error ⟨.other, "Last message was from same role"⟩, ctx)
      else
        (.ok (),
          { ctx with
            chat := some { chat with messages := chat.messages ++ [Message.normal role message] },
            dirty := true })
    | none =>
      (.ok (),
        { ctx with
          chat := some { chat with messages := chat.messages ++ [Message.normal role message] },
          dirty := true })

/-! ## `ChatContext::parse_streaming_response`
(src/openaiapi/mod.rs:448-532)

The accumulated SSE body is split into lines (Rust `str::lines`); each
trimmed, non-empty, non-terminator line starting with `"data: "` is
JSON-parsed and folded into the reconstruction state.  The final
`panic!` when more than one tool call was completed is modelled by the
`fatal` constructor. -/

/-- Accumulation state: the `full_response`/`tool_calls` vectors and the
four in-progress tool-call strings of the Rust function. -/
structure StreamState where
  full_response : String
  tool_calls : List ToolCall
  tool_call_id : String
  tool_call_type : String
  tool_call_function_name : String
  tool_call_function_arguments : String
deriving DecidableEq, Repr

def initialStreamState : StreamState := ⟨"", [], "", "", "", ""⟩

/-- The `for tool_call_value in array` body (src/openaiapi/mod.rs:482-498):
`id`, `type` and `function.name` overwrite, `function.arguments`
fragments are appended. -/
def processToolCallValue (st : StreamState) (tv : Json) : StreamState :=
  let st :=
    match (tv.get "id").bind Json.asStr with
    | some id => { st with tool_call_id := id }
    | none => st
  let st :=
    match (tv.get "type").bind Json.asStr with
    | some tool_type => { st with tool_call_type := tool_type }
    | none => st
  match (tv.get "function").bind Json.asObj with
  | some value =>
    let st :=
      match (lookupField value "name").bind Json.asStr with
      | some name => { st with tool_call_function_name := name }
      | none => st
    match (lookupField value "arguments").bind Json.asStr with
    | some arguments =>
      { st with tool_call_function_arguments := st.tool_call_function_arguments ++ arguments }
    | none => st
  | none => st

/-- The `delta` handling (src/openaiapi/mod.rs:471-501): text content is
appended to `full_response`, tool-call fragments are merged. -/
def processDelta (st : StreamState) (delta : Json) : StreamState :=
  let st :=
    match (delta.get "content").bind Json.asStr with
    | some content_str => { st with full_response := st.full_response ++ content_str }
    | none => st
  match (delta.get "tool_calls").bind Json.asArr with
  | some array => array.foldl processToolCallValue st
  | none => st

/-- Finalizing the in-progress tool call on `finish_reason == "tool_calls"`
(src/openaiapi/mod.rs:503-513). -/
def pushToolCall (st : StreamState) : StreamState :=
  { st with
    tool_calls := st.tool_calls ++
      [⟨st.tool_call_id, st.tool_call_type,
        ⟨st.tool_call_function_name, st.tool_call_function_arguments⟩⟩],
    tool_call_id := "", tool_call_type := "",
    tool_call_function_name := "", tool_call_function_arguments := "" }

/-- The `if let Some(delta)` step of one choice
(src/openaiapi/mod.rs:471). -/
def processFirstChoiceDelta (st : StreamState) (first_choice : Json) : StreamState :=
  match first_choice.get "delta" with
  | some delta => processDelta st delta
  | none => st

/-- Processing of one successfully parsed `data:` payload
(src/openaiapi/mod.rs:465-514). -/
def processJson (st : StreamState) (json : Json) : StreamState :=
  match json.get "choices" with
  | none => st
  | some choices =>
    match choices.getIdx 0 with
    | none => st
    | some first_choice =>
      let st := processFirstChoiceDelta st first_choice
      match (first_choice.get "finish_reason").bind Json.asStr with
      | some finish_reason => if finish_reason == "tool_calls" then pushToolCall st else st
      | none => st

/-- Rust `str::trim` (kernel-reducible re-implementation of trimming
whitespace from both ends). -/
def trimStr (s : String) : String :=
  String.mk (((s.data.dropWhile Char.isWhitespace).reverse.dropWhile Char.isWhitespace).reverse)

def isPrefixData : List Char → List Char → Bool
  | [], _ => true
  | _ :: _, [] => false
  | p :: ps, c :: cs => p == c && isPrefixData ps cs

/-- Rust `str::starts_with` on string literals. -/
def startsWithStr (s pre : String) : Bool :=
  isPrefixData pre.data s.data

/-- Rust `&line[6..]` for the all-ASCII prefix `"data: "`. -/
def dropChars (s : String) (n : Nat) : String :=
  String.mk (s.data.drop n)

/-- The line filter (src/openaiapi/mod.rs:460-464): trim, skip empty and
`"[DONE]"` lines, require the `"data: "` prefix, strip it, JSON-parse;
any line failing one of these steps yields nothing. -/
def dataOfLine (rawLine : String) : Option Json :=
  let line := trimStr rawLine
  if !(line == "") && line != "[DONE]" then
    if startsWithStr line "data: " then parseJson (dropChars line 6) else none
  else none

def processLine (st : StreamState) (rawLine : String) : StreamState :=
  match dataOfLine rawLine with
  | some json => processJson st json
  | none => st

/-- Split on newline characters (the semantics of `String.splitOn "\n"`,
re-implemented structurally so it reduces in the kernel). -/
def splitNl : List Char → String → List String
  | [], acc => [acc]
  | c :: cs, acc => if c = '\n' then acc :: splitNl cs "" else splitNl cs (acc.push c)

/-- Strip one trailing carriage return. -/
def stripCr (s : String) : String :=
  match s.data.getLast? with
  | some c => if c = '\r' then String.mk s.data.dropLast else s
  | none => s

/-- Rust `str::lines`: every newline-terminated piece loses one trailing
carriage return; the empty piece a trailing newline leaves is dropped. -/
def rustLinesAux : List String → List String
  | [] => []
  | [last] => if last = "" then [] else [last]
  | p :: q :: rest => stripCr p :: rustLinesAux (q :: rest)

def rustLines (s : String) : List String :=
  rustLinesAux (splitNl s.data "")

/-- Result of `parse_streaming_response`: the function either returns
`Ok(message)` (its `Err` path is unreachable) or hits the
`panic!("Tool calls cannot be more than one!")`, modelled as `fatal`. -/
inductive StreamResult where
  | fatal (msg : String)
  | ok (m : Message)
deriving DecidableEq, Repr

def parse_streaming_response (accumulated_message : String) : StreamResult :=
  let st := (rustLines accumulated_message).foldl processLine initialStreamState
  if st.tool_calls.length > 1 then .fatal "Tool calls cannot be more than one!"
  else
    .ok
      { role := "assistant",
        content :=
          if st.full_response.utf8ByteSize > 0 then some (.simple st.full_response) else none,
        name := none, tool_call_id := none,
        tool_calls := if !st.tool_calls.isEmpty then some st.tool_calls else none }

example :
    parse_streaming_response
      "data: \x7b\"choices\":[\x7b\"delta\":\x7b\"content\":\"Hi\"\x7d\x7d]\x7d\ndata: \x7b\"choices\":[\x7b\"delta\":\x7b\"content\":\" there\"\x7d\x7d]\x7d\ndata: [DONE]\n" =
    .ok { role := "assistant", content := some (.simple "Hi there"),
          name := none, tool_call_id := none, tool_calls := none } := by rfl

/-! ## `src/tools/executor.rs`: bounded line buffer and executor

`Instant` is modelled as a natural number of milliseconds (the code only
subtracts instants and renders the difference in milliseconds).  Rust
`String::len`/`String::truncate` work on UTF-8 bytes; `truncate` panics
when the cut does not fall on a character boundary, modelled by an
`Option` result. -/

inductive StreamKind where
  | stdout
  | stderr
deriving DecidableEq, Repr

/-- `TimedLine` (src/tools/executor.rs:33); the Rust field `at` is a Lean
keyword and is named `capturedAt` here. -/
structure TimedLine where
  capturedAt : Nat
  kind : StreamKind
  line : String
deriving DecidableEq, Repr

def MAX_LINES : Nat := 128

def MAX_LINE_LEN : Nat := 256

def utf8Len (s : String) : Nat := s.utf8ByteSize

/-- Keep the longest prefix of at most `n` UTF-8 bytes; `none` when `n`
falls strictly inside a character (Rust `String::truncate` panics). -/
def truncAux : List Char → Nat → Option (List Char)
  | _, 0 => some []
  | [], _ + 1 => some []
  | c :: rest, n + 1 =>
    if c.utf8Size ≤ n + 1 then (truncAux rest (n + 1 - c.utf8Size)).map (fun out => c :: out)
    else none

/-- Rust `String::truncate(new_len)`: no-op when `new_len ≥ len`, cut at
the byte boundary otherwise, panic (`none`) off a char boundary. -/
def rustTruncate (s : String) (new_len : Nat) : Option String :=
  (truncAux s.data new_len).map String.mk

/-- The line as stored by `push_bounded` (src/tools/executor.rs:54-56):
truncated to `MAX_LINE_LEN` bytes when longer. -/
def storedLine (line : String) : Option String :=
  if utf8Len line > MAX_LINE_LEN then rustTruncate line MAX_LINE_LEN else some line

/-- `push_bounded` (src/tools/executor.rs:53-67).  `Instant::now()` is
passed in as `now`; `none` models the truncation panic. -/
def push_bounded (buf : List TimedLine) (kind : StreamKind) (line : String)
    (now : Nat) : Option (List TimedLine) :=
  match storedLine line with
  | none => none
  | some line =>
    let buf := if buf.length == MAX_LINES then buf.drop 1 else buf
    some (buf ++ [{ capturedAt := now, kind := kind, line := line }])

/-- A sequence of `push_bounded` calls (how the read loop of the executor
feeds the buffer), stopping at the first panic. -/
def pushMany (buf : List TimedLine) : List (StreamKind × String × Nat) → Option (List TimedLine)
  | [] => some buf
  | (kind, line, now) :: rest =>
    match push_bounded buf kind line now with
    | some buf2 => pushMany buf2 rest
    | none => none

/-- The signed millisecond offset of one line
(src/tools/executor.rs:143-146): `checked_duration_since` succeeds
exactly when the instant of the line is not before `started_at`. -/
def lineOffset (started_at capturedAt : Nat) : Int :=
  if started_at ≤ capturedAt then ((capturedAt - started_at : Nat) : Int)
  else -((started_at - capturedAt : Nat) : Int)

/-- Rust `format!` right-alignment `{:>5}`. -/
def padLeft5 (s : String) : String :=
  String.mk (List.replicate (5 - s.length) ' ') ++ s

/-- `Vec::join(sep)`. -/
def joinSep (sep : String) : List String → String
  | [] => ""
  | [x] => x
  | x :: y :: xs => x ++ sep ++ joinSep sep (y :: xs)

/-- `lines_with_offsets` (src/tools/executor.rs:139-152). -/
def lines_with_offsets (started_at : Nat) (lines : List TimedLine) : String :=
  joinSep "\n"
    (lines.map (fun tl => padLeft5 (toString (lineOffset started_at tl.capturedAt)) ++ "| " ++ tl.line))

/-- `ExecuteResults` (src/tools/executor.rs:17). -/
structure ExecuteResults where
  output : String
  timed_out : Bool
  exit_code : Int
deriving DecidableEq, Repr

/-- `std::process::ExitStatus` as observed through `success()` and
`code()`. -/
structure ExitStatus where
  success : Bool
  code : Option Int
deriving DecidableEq, Repr

/-- `RunResult` (src/tools/executor.rs:40). -/
inductive RunResult where
  | completed (output : List TimedLine) (status : ExitStatus)
  | timedOut (output : List TimedLine)
deriving DecidableEq, Repr

/-- Whether `Command::spawn()` produced a child process. -/
inductive SpawnOutcome where
  | success
  | failure (e : String)
deriving DecidableEq, Repr

/-- What a call to `Executor::execute` does: return `Ok`, return `Err`,
or panic (the `.expect` on `spawn()`). -/
inductive ExecOutcome where
  | ok (r : ExecuteResults)
  | err (e : String)
  | panicked (msg : String)
deriving DecidableEq, Repr

/-- `Executor::execute` (src/tools/executor.rs:155-181).  The spawn
outcome and the outcome of `run_and_capture_with_timeout` (an I/O error
from the stream readers, a timeout, or completion with an exit status)
are the async environment, passed as arguments; the function maps them
to the returned value exactly as the Rust match does. -/
def Executor.execute (started_at : Nat) (spawn : SpawnOutcome)
    (child_result : Except String RunResult) : ExecOutcome :=
  match spawn with
  | .failure _ => .panicked "Failed to spawn command"
  | .success =>
    match child_result with
    | .ok run_result =>
      match run_result with
      | .timedOut output =>
        .ok { output := lines_with_offsets started_at output, exit_code := 137, timed_out := true }
      | .completed output status =>
        let exit_code := if status.success then status.code.getD (-1) else -1
        .ok { output := lines_with_offsets started_at output, exit_code := exit_code, timed_out := false }
    | .error err => .err err

/-! ## `Dispatcher::dispatch` (src/tools/mod.rs:16-80)

The dispatcher routes a function name, JSON-decodes the arguments the
way each arm does, and then performs the effect of the tool.  The effects
(filesystem, sqlite, process spawning) are the environment; the model
returns either the dispatch-level error produced before any effect, or
the fully decoded invocation that would be performed.  The two
file-tool arms that take the raw string (`write_file`,
`search_replace`) JSON-decode inside the callee before touching the
filesystem; that parse step is included here.  the rendered `serde_json`
parse-error text is abstracted as `serdeErrMsg`. -/

structure ExecuteArgs where
  command : String
deriving DecidableEq, Repr

structure WriteArgs where
  path : String
  content : String
  append : Bool
deriving DecidableEq, Repr

structure ReadArgs where
  path : String
  show_line_numbers : Option Bool
  offset : Option Nat
  limit : Option Nat
deriving DecidableEq, Repr

structure EditArgs where
  path : String
  old_string : String
  new_string : String
deriving DecidableEq, Repr

structure EditOperation where
  old_string : String
  new_string : String
deriving DecidableEq, Repr

structure MultiEditArgs where
  path : String
  edits : List EditOperation
deriving DecidableEq, Repr

structure WriteFileArgs where
  path : String
  content : String
  overwrite : Bool
deriving DecidableEq, Repr

structure SearchReplaceInput where
  file_path : String
  content : String
deriving DecidableEq, Repr

/-- `TodoRequest`: both fields optional.  The struct lives in the
`tools::todo` module (not present under src/, but its shape is pinned
by the literal `TodoRequest { name: None, task: None }` the dispatcher
constructs, and by the identical struct in src/todo/mod.rs:57). -/
structure TodoRequest where
  name : Option String
  task : Option String
deriving DecidableEq, Repr

/-- Required string field of a derived `Deserialize`. -/
def reqStr (j : Json) (key : String) : Option String :=
  (j.get key).bind Json.asStr

/-- `Option<T>` field of a derived `Deserialize`: missing or `null`
gives `None`, a present value must decode. -/
def optField {α : Type} (j : Json) (key : String) (dec : Json → Option α) :
    Option (Option α) :=
  match j.get key with
  | none => some none
  | some .null => some none
  | some v => (dec v).map some

/-- `#[serde(default)] bool` field: missing gives `false`. -/
def defBool (j : Json) (key : String) : Option Bool :=
  match j.get key with
  | none => some false
  | some v => v.asBool

def ExecuteArgs.fromJson (j : Json) : Option ExecuteArgs :=
  match j with
  | .obj _ => (reqStr j "command").map ExecuteArgs.mk
  | _ => none

def WriteArgs.fromJson (j : Json) : Option WriteArgs :=
  match j with
  | .obj _ => do
    let path ← reqStr j "path"
    let content ← reqStr j "content"
    let append ← defBool j "append"
    some ⟨path, content, append⟩
  | _ => none

def ReadArgs.fromJson (j : Json) : Option ReadArgs :=
  match j with
  | .obj _ => do
    let path ← reqStr j "path"
    let show_line_numbers ← optField j "show_line_numbers" Json.asBool
    let offset ← optField j "offset" Json.asNat
    let limit ← optField j "limit" Json.asNat
    some ⟨path, show_line_numbers, offset, limit⟩
  | _ => none

def EditArgs.fromJson (j : Json) : Option EditArgs :=
  match j with
  | .obj _ => do
    let path ← reqStr j "path"
    let old_string ← reqStr j "old_string"
    let new_string ← reqStr j "new_string"
    some ⟨path, old_string, new_string⟩
  | _ => none

def EditOperation.fromJson (j : Json) : Option EditOperation :=
  match j with
  | .obj _ => do
    let old_string ← reqStr j "old_string"
    let new_string ← reqStr j "new_string"
    some ⟨old_string, new_string⟩
  | _ => none

def MultiEditArgs.fromJson (j : Json) : Option MultiEditArgs :=
  match j with
  | .obj _ => do
    let path ← reqStr j "path"
    let editsJson ← (j.get "edits").bind Json.asArr
    let edits ← editsJson.mapM EditOperation.fromJson
    some ⟨path, edits⟩
  | _ => none

def WriteFileArgs.fromJson (j : Json) : Option WriteFileArgs :=
  match j with
  | .obj _ => do
    let path ← reqStr j "path"
    let content ← reqStr j "content"
    let overwrite ← defBool j "overwrite"
    some ⟨path, content, overwrite⟩
  | _ => none

def SearchReplaceInput.fromJson (j : Json) : Option SearchReplaceInput :=
  match j with
  | .obj _ => do
    let file_path ← reqStr j "file_path"
    let content ← reqStr j "content"
    some ⟨file_path, content⟩
  | _ => none

def TodoRequest.fromJson (j : Json) : Option TodoRequest :=
  match j with
  | .obj _ => do
    let name ← optField j "name" Json.asStr
    let task ← optField j "task" Json.asStr
    some ⟨name, task⟩
  | _ => none

/-- `serde_json::from_str` for a derived struct: parse, then decode. -/
def deserialize {α : Type} (dec : Json → Option α) (s : String) : Option α :=
  (parseJson s).bind dec

/-- Placeholder for the library-generated text of a serde_json parse
error as rendered by `e.to_string()`. -/
def serdeErrMsg : String := "JSON parse error"

/-- The tool effect an arm of `dispatch` would perform after its
argument handling. -/
inductive ToolInvocation where
  | write (args : WriteArgs)
  | writeFileTool (args : WriteFileArgs)
  | read (args : ReadArgs)
  | edit (args : EditArgs)
  | multiedit (args : MultiEditArgs)
  | searchReplace (args : SearchReplaceInput)
  | addTodoTask (name task : String)
  | completeTodoTask (name task : String)
  | deleteTodoTask (name task : String)
  | getTodoLists
  | getTodoTasks (name : String)
  | executeCmd (args : ExecuteArgs)
deriving DecidableEq, Repr

inductive DispatchOutcome where
  | err (msg : String)
  | invoke (t : ToolInvocation)
deriving DecidableEq, Repr

/-- `Dispatcher::dispatch` up to the point where a tool effect starts:
the argument decoding of every arm and the errors it produces before doing
anything, as in src/tools/mod.rs:16-80. -/
def Dispatcher.dispatch (function_name : String) (arguments : String) : DispatchOutcome :=
  if function_name == "write" then
    match deserialize WriteArgs.fromJson arguments with
    | some args => .invoke (.write args)
    | none => .err serdeErrMsg
  else if function_name == "write_file" then
    match deserialize WriteFileArgs.fromJson arguments with
    | some args => .invoke (.writeFileTool args)
    | none => .err ("Invalid JSON arguments: " ++ serdeErrMsg)
  else if function_name == "read" then
    match deserialize ReadArgs.fromJson arguments with
    | some args => .invoke (.read args)
    | none => .err serdeErrMsg
  else if function_name == "edit" then
    match deserialize EditArgs.fromJson arguments with
    | some args => .invoke (.edit args)
    | none => .err serdeErrMsg
  else if function_name == "multiedit" then
    match deserialize MultiEditArgs.fromJson arguments with
    | some args => .invoke (.multiedit args)
    | none => .err serdeErrMsg
  else if function_name == "search_replace" then
    match deserialize SearchReplaceInput.fromJson arguments with
    | some args => .invoke (.searchReplace args)
    | none => .err serdeErrMsg
  else if function_name == "add_todo_task" then
    let args := (deserialize TodoRequest.fromJson arguments).getD ⟨none, none⟩
    match args.name with
    | none => .err ("Missing \x27name\x27 for " ++ function_name)
    | some name =>
      match args.task with
      | none => .err ("Missing \x27task\x27 for " ++ function_name)
      | some task => .invoke (.addTodoTask name task)
  else if function_name == "complete_todo_task" then
    let args := (deserialize TodoRequest.fromJson arguments).getD ⟨none, none⟩
    match args.name with
    | none => .err ("Missing \x27name\x27 for " ++ function_name)
    | some name =>
      match args.task with
      | none => .err ("Missing \x27task\x27 for " ++ function_name)
      | some task => .invoke (.completeTodoTask name task)
  else if function_name == "delete_todo_task" then
    let args := (deserialize TodoRequest.fromJson arguments).getD ⟨none, none⟩
    match args.name with
    | none => .err ("Missing \x27name\x27 for " ++ function_name)
    | some name =>
      match args.task with
      | none => .err ("Missing \x27task\x27 for " ++ function_name)
      | some task => .invoke (.deleteTodoTask name task)
  else if function_name == "get_todo_lists" then
    .invoke .getTodoLists
  else if function_name == "get_todo_tasks" then
    let args := (deserialize TodoRequest.fromJson arguments).getD ⟨none, none⟩
    match args.name with
    | none => .err ("Missing \x27name\x27 for " ++ function_name)
    | some name => .invoke (.getTodoTasks name)
  else if function_name == "execute" then
    let args := (deserialize ExecuteArgs.fromJson arguments).getD ⟨"echo Error"⟩
    .invoke (.executeCmd args)
  else .err ("Unknown function: " ++ function_name)

/-! ## Auxiliary and specification-side definitions used by the theorems -/

/-- Total UTF-8 byte length of a character list. -/
def charsByteLen : List Char → Nat
  | [] => 0
  | c :: cs => c.utf8Size + charsByteLen cs

/-- The stored form of one push (timestamped, length-truncated), `none`
when the truncation would panic. -/
def storedEntry (it : StreamKind × String × Nat) : Option TimedLine :=
  (storedLine it.2.1).map (fun sl => { capturedAt := it.2.2, kind := it.1, line := sl })

/-- Whether a parsed `data:` payload carries
`choices[0].finish_reason == "tool_calls"`, i.e. completes one tool
call when processed. -/
def jsonFinishesToolCall (j : Json) : Bool :=
  match j.get "choices" with
  | none => false
  | some choices =>
    match choices.getIdx 0 with
    | none => false
    | some first_choice =>
      match (first_choice.get "finish_reason").bind Json.asStr with
      | some finish_reason => finish_reason == "tool_calls"
      | none => false

/-- Whether one raw line of the stream blob completes a tool call. -/
def lineCompletesToolCall (rawLine : String) : Bool :=
  match dataOfLine rawLine with
  | some j => jsonFinishesToolCall j
  | none => false

/-- A delta frame whose only payload is one function-arguments fragment
`s`: `\x7b"choices":[\x7b"delta":\x7b"tool_calls":[\x7b"function":\x7b"arguments":s\x7d\x7d]\x7d\x7d]\x7d`. -/
def argFragmentFrame (s : String) : Json :=
  Json.obj [("choices", Json.arr [Json.obj [("delta",
    Json.obj [("tool_calls", Json.arr [Json.obj [("function",
      Json.obj [("arguments", Json.str s)])]])])]])]

/-- A frame whose first choice has `finish_reason = "tool_calls"`. -/
def toolCallsFinishFrame : Json :=
  Json.obj [("choices", Json.arr [Json.obj [("finish_reason", Json.str "tool_calls")]])]

/-- Concatenation of a list of strings in order. -/
def joinAll : List String → String
  | [] => ""
  | x :: xs => x ++ joinAll xs

/-- Specification-side (spec.md §3/§8): a tool-call id is answered when
a strictly later message carries it as `tool_call_id`. -/
def answeredIn (id : String) (ms : List Message) : Bool :=
  ms.any (fun m => m.tool_call_id == some id)

/-- Specification-side (spec.md §4.4 `oldest_pending_tool_call_id`): the
ids of emitted tool calls, in emission order, that no strictly later
message answers. -/
def specPendingToolCallIds : List Message → List String
  | [] => []
  | m :: rest =>
    (toolCallIdsOf m).filter (fun id => !(answeredIn id rest)) ++ specPendingToolCallIds rest

/-! ## Helper lemmas -/

theorem utf8Len_mk (cs : List Char) : utf8Len (String.mk cs) = charsByteLen cs := by
  show String.utf8ByteSize.go cs = charsByteLen cs
  induction cs with
  | nil => rfl
  | cons c rest ih => simp only [String.utf8ByteSize.go, charsByteLen, ih]; omega

theorem utf8Len_eq_charsByteLen (s : String) : utf8Len s = charsByteLen s.data := by
  cases s
  exact utf8Len_mk _

theorem truncAux_some_len (cs : List Char) :
    ∀ (n : Nat) (out : List Char), truncAux cs n = some out →
      charsByteLen out = min n (charsByteLen cs) := by
  induction cs with
  | nil =>
    intro n out h
    cases n with
    | zero => simp [truncAux] at h; subst h; simp [charsByteLen]
    | succ k => simp [truncAux] at h; subst h; simp [charsByteLen]
  | cons c rest ih =>
    intro n out h
    cases n with
    | zero => simp [truncAux] at h; subst h; simp [charsByteLen]
    | succ k =>
      rw [truncAux] at h
      by_cases hc : c.utf8Size ≤ k + 1
      · rw [if_pos hc] at h
        cases hrec : truncAux rest (k + 1 - c.utf8Size) with
        | none => rw [hrec] at h; simp at h
        | some out2 =>
          rw [hrec] at h
          simp at h
          have := ih (k + 1 - c.utf8Size) out2 hrec
          subst h
          simp [charsByteLen, this]
          omega
      · rw [if_neg hc] at h; exact absurd h (by simp)

/-! ## Claim C7: timeout result of `Executor::execute` -/

/-- C7: when the timeout elapses before both output streams end (the run
outcome is `TimedOut`), `Executor::execute` returns `Ok` with
`timed_out = true`, `exit_code = 137` (the kill sentinel), and `output`
equal to the rendered report of the captured lines. -/
theorem execute_timeout_result (started_at : Nat) (output : List TimedLine) :
    Executor.execute started_at .success (.ok (.timedOut output)) =
      .ok { output := lines_with_offsets started_at output,
            timed_out := true, exit_code := 137 } := rfl

/-! ## Claim C1: what `Executor::execute` throws for -/

/-- C1 counterexample: `Executor.execute` does not throw only for spawn
failure.  An I/O error from the output-stream readers (line 128 of
src/tools/executor.rs, e.g. non-UTF-8 output) is returned as `Err`,
while spawn failure does not return at all: the `.expect` on `spawn()`
panics. -/
theorem execute_throws_for_read_error :
    Executor.execute 0 .success (.error "stream read failed") = .err "stream read failed" ∧
    Executor.execute 0 (.failure "no shell") (.ok (.timedOut [])) =
      .panicked "Failed to spawn command" := ⟨rfl, rfl⟩

/-- C1 amended: a timeout or any completed exit (zero or non-zero)
yields a normal `Ok ExecuteResults`; a stream-read I/O error is the
only thrown (`Err`) failure; spawn failure panics (aborts) instead of
returning. -/
theorem execute_error_surface (started_at : Nat) (output : List TimedLine)
    (status : ExitStatus) (e msg : String) (cr : Except String RunResult) :
    (∃ r, Executor.execute started_at .success (.ok (.timedOut output)) = .ok r ∧
        r.timed_out = true ∧ r.exit_code = 137) ∧
    (∃ r, Executor.execute started_at .success (.ok (.completed output status)) = .ok r ∧
        r.timed_out = false) ∧
    Executor.execute started_at .success (.error e) = .err e ∧
    Executor.execute started_at (.failure msg) cr = .panicked "Failed to spawn command" := by
  refine ⟨⟨_, rfl, rfl, rfl⟩, ⟨_, rfl, rfl⟩, rfl, rfl⟩

/-! ## Claim C5: truncation of long lines in `push_bounded` -/

/-- C5 counterexample: a line of 255 ASCII bytes followed by one 2-byte
character has byte length 257 > 256, but byte 256 falls inside the last
character, so `String::truncate(256)` panics and the push does not
succeed. -/
theorem push_bounded_panics_on_split_char :
    utf8Len (String.mk (List.replicate 255 'a' ++ [Char.ofNat 162])) = 257 ∧
    push_bounded [] .stdout (String.mk (List.replicate 255 'a' ++ [Char.ofNat 162])) 0 =
      none := ⟨rfl, rfl⟩

/-- C5 amended: for every line longer than `MAX_LINE_LEN` (256) bytes
whose 256-byte mark falls on a character boundary (in particular every
ASCII line), the push succeeds and stores the line truncated to exactly
256 bytes; when the mark splits a character the push panics instead. -/
theorem push_bounded_truncates (buf : List TimedLine) (kind : StreamKind)
    (line : String) (now : Nat) (t : String)
    (hlong : utf8Len line > MAX_LINE_LEN)
    (htr : rustTruncate line MAX_LINE_LEN = some t) :
    push_bounded buf kind line now =
      some ((if buf.length == MAX_LINES then buf.drop 1 else buf) ++
        [{ capturedAt := now, kind := kind, line := t }]) ∧
    utf8Len t = MAX_LINE_LEN := by
  constructor
  · simp only [push_bounded, storedLine, if_pos hlong, htr]
  · obtain ⟨out, hout, ht⟩ := Option.map_eq_some'.mp htr
    subst ht
    rw [utf8Len_mk, truncAux_some_len line.data MAX_LINE_LEN out hout]
    rw [utf8Len_eq_charsByteLen] at hlong
    omega

/-- C5 witness for the amended theorem: 257 ASCII bytes are truncated to
the first 256. -/
theorem push_bounded_truncates_witness :
    push_bounded [] .stdout (String.mk (List.replicate 257 'a')) 7 =
      some [{ capturedAt := 7, kind := .stdout, line := String.mk (List.replicate 256 'a') }] ∧
    utf8Len (String.mk (List.replicate 256 'a')) = MAX_LINE_LEN :=
  ⟨(push_bounded_truncates [] .stdout (String.mk (List.replicate 257 'a')) 7
      (String.mk (List.replicate 256 'a')) (by decide) (by rfl)).1,
   (push_bounded_truncates [] .stdout (String.mk (List.replicate 257 'a')) 7
      (String.mk (List.replicate 256 'a')) (by decide) (by rfl)).2⟩

/-! ## Claim C8: malformed JSON arguments at the dispatcher -/

/-- C8 counterexample: for the routed tool name `"execute"`, a malformed
arguments string is not surfaced as a dispatch-level error; the
`unwrap_or` at src/tools/mod.rs:67 substitutes the default
`ExecuteArgs { command: "echo Error" }` and the execution is performed
with the substituted arguments. -/
theorem dispatch_execute_substitutes_on_bad_json :
    parseJson "not json" = none ∧
    Dispatcher.dispatch "execute" "not json" =
      .invoke (.executeCmd { command := "echo Error" }) ∧
    ∀ msg, Dispatcher.dispatch "execute" "not json" ≠ .err msg :=
  ⟨rfl, rfl, fun msg h => by
    rw [show Dispatcher.dispatch "execute" "not json" =
        .invoke (.executeCmd { command := "echo Error" }) from rfl] at h
    exact DispatchOutcome.noConfusion h⟩

/-- C8 amended: for every malformed (unparseable) arguments string, the
arms `write`, `write_file`, `read`, `edit`, `multiedit`,
`search_replace`, `add_todo_task`, `complete_todo_task`,
`delete_todo_task` and `get_todo_tasks` return a dispatch-level error
string without performing the effect of the tool; the `execute` arm instead
substitutes the default command `echo Error` and performs the
execution, and `get_todo_lists` ignores its arguments and performs its
effect. -/
theorem dispatch_malformed_arguments (arguments : String)
    (hbad : parseJson arguments = none) :
    Dispatcher.dispatch "execute" arguments =
      .invoke (.executeCmd { command := "echo Error" }) ∧
    Dispatcher.dispatch "write" arguments = .err serdeErrMsg ∧
    Dispatcher.dispatch "write_file" arguments =
      .err ("Invalid JSON arguments: " ++ serdeErrMsg) ∧
    Dispatcher.dispatch "read" arguments = .err serdeErrMsg ∧
    Dispatcher.dispatch "edit" arguments = .err serdeErrMsg ∧
    Dispatcher.dispatch "multiedit" arguments = .err serdeErrMsg ∧
    Dispatcher.dispatch "search_replace" arguments = .err serdeErrMsg ∧
    Dispatcher.dispatch "add_todo_task" arguments =
      .err ("Missing \x27name\x27 for " ++ "add_todo_task") ∧
    Dispatcher.dispatch "complete_todo_task" arguments =
      .err ("Missing \x27name\x27 for " ++ "complete_todo_task") ∧
    Dispatcher.dispatch "delete_todo_task" arguments =
      .err ("Missing \x27name\x27 for " ++ "delete_todo_task") ∧
    Dispatcher.dispatch "get_todo_tasks" arguments =
      .err ("Missing \x27name\x27 for " ++ "get_todo_tasks") ∧
    Dispatcher.dispatch "get_todo_lists" arguments = .invoke .getTodoLists := by
  refine ⟨?_, ?_, ?_, ?_, ?_, ?_, ?_, ?_, ?_, ?_, ?_, ?_⟩ <;>
    simp [Dispatcher.dispatch, deserialize, hbad]

/-- C8 amended witness at the concrete malformed input `"not json"`. -/
theorem dispatch_malformed_arguments_witness :
    Dispatcher.dispatch "execute" "not json" =
      .invoke (.executeCmd { command := "echo Error" }) ∧
    Dispatcher.dispatch "write" "not json" = .err serdeErrMsg :=
  ⟨(dispatch_malformed_arguments "not json" rfl).1,
   (dispatch_malformed_arguments "not json" rfl).2.1⟩

/-! ## Claim C9: role alternation in `add_normal_message` -/

/-- C9: on a non-empty conversation, appending a normal message whose
role equals the role of the last message fails with a role-alternation error
and leaves the context (message log and dirty flag) unchanged; a
differing role appends `Message::normal(role, content)` and marks the
conversation modified. -/
theorem add_normal_message_role_alternation (ctx : ChatContext) (c : Chat)
    (m : Message) (role : String) (content : MessageContent)
    (hchat : ctx.chat = some c) (hlast : c.messages.getLast? = some m) :
    (m.role = role →
      add_normal_message ctx role content =
        (.error ⟨.other, "Last message was from same role"⟩, ctx)) ∧
    (m.role ≠ role →
      add_normal_message ctx role content =
        (.ok (),
          { ctx with
            chat := some { c with messages := c.messages ++ [Message.normal role content] },
            dirty := true })) := by
  constructor
  · intro hrole
    simp [add_normal_message, hchat, hlast, hrole]
  · intro hrole
    simp [add_normal_message, hchat, hlast, hrole]

/-- C9 witness: after a `"user"` message, appending another `"user"`
message fails and leaves the log unchanged; appending an `"assistant"`
message succeeds, appends it and sets the dirty flag. -/
theorem add_normal_message_role_alternation_witness :
    add_normal_message
        { chat := some { messages := [Message.normal "user" (.simple "hi")] }, dirty := false }
        "user" (.simple "again") =
      (.error ⟨.other, "Last message was from same role"⟩,
        { chat := some { messages := [Message.normal "user" (.simple "hi")] }, dirty := false }) ∧
    add_normal_message
        { chat := some { messages := [Message.normal "user" (.simple "hi")] }, dirty := false }
        "assistant" (.simple "hello") =
      (.ok (),
        { chat := some { messages := [Message.normal "user" (.simple "hi"),
            Message.normal "assistant" (.simple "hello")] }, dirty := true }) :=
  ⟨(add_normal_message_role_alternation
      { chat := some { messages := [Message.normal "user" (.simple "hi")] }, dirty := false }
      { messages := [Message.normal "user" (.simple "hi")] }
      (Message.normal "user" (.simple "hi")) "user" (.simple "again") rfl rfl).1 rfl,
   (add_normal_message_role_alternation
      { chat := some { messages := [Message.normal "user" (.simple "hi")] }, dirty := false }
      { messages := [Message.normal "user" (.simple "hi")] }
      (Message.normal "user" (.simple "hi")) "assistant" (.simple "hello") rfl rfl).2
      (by decide)⟩

/-! ## Claim C10: payload-free blobs are skipped silently -/

theorem foldl_processLine_skip (ls : List String) :
    ∀ st, (∀ l ∈ ls, dataOfLine l = none) → ls.foldl processLine st = st := by
  induction ls with
  | nil => intro st _; rfl
  | cons l rest ih =>
    intro st h
    have h1 : dataOfLine l = none := h l (List.mem_cons_self l rest)
    have h2 : ∀ x ∈ rest, dataOfLine x = none := fun x hx => h x (List.mem_cons_of_mem l hx)
    simp only [List.foldl_cons, processLine, h1]
    exact ih st h2

/-- C10: for every input blob in which no line carries a parseable
`data: ` JSON payload (each line, after trimming, is empty, is the
`[DONE]` terminator, lacks the `data: ` prefix, or its payload fails to
parse), the reconstructor does not fail: every such line is skipped and
the result is the assistant message with `content = none` and
`tool_calls = none`. -/
theorem parse_streaming_no_payload (s : String)
    (h : ∀ l ∈ rustLines s,
      trimStr l = "" ∨ trimStr l = "[DONE]" ∨
        startsWithStr (trimStr l) "data: " = false ∨
        (parseJson (dropChars (trimStr l) 6)).isNone = true) :
    parse_streaming_response s =
      .ok { role := "assistant", content := none, name := none,
            tool_call_id := none, tool_calls := none } := by
  have hskip : ∀ l ∈ rustLines s, dataOfLine l = none := by
    intro l hl
    rcases h l hl with h1 | h1 | h1 | h1
    · simp [dataOfLine, h1]
    · simp [dataOfLine, h1]
    · simp [dataOfLine, h1]
    · rw [Option.isNone_iff_eq_none] at h1
      simp only [dataOfLine, h1, ite_self]
  rw [parse_streaming_response, foldl_processLine_skip (rustLines s) initialStreamState hskip]
  rfl

/-- C10 witness: a blob consisting of an empty line, the terminator, a
prefix-less line and a `data: ` line with invalid JSON yields the empty
assistant message. -/
theorem parse_streaming_no_payload_witness :
    parse_streaming_response "\n[DONE]\nnoise\ndata: notjson\n" =
      .ok { role := "assistant", content := none, name := none,
            tool_call_id := none, tool_calls := none } :=
  parse_streaming_no_payload "\n[DONE]\nnoise\ndata: notjson\n" (by decide)

/-! ## Claim C4: argument fragments are concatenated in arrival order -/

theorem foldl_argFragmentFrame (frags : List String) :
    ∀ st : StreamState,
      (frags.map argFragmentFrame).foldl processJson st =
        { st with tool_call_function_arguments :=
            st.tool_call_function_arguments ++ joinAll frags } := by
  induction frags with
  | nil => intro st; show st = _; simp [joinAll]
  | cons f fs ih =>
    intro st
    simp only [List.map_cons, List.foldl_cons]
    have h1 : processJson st (argFragmentFrame f) =
        { st with tool_call_function_arguments :=
            st.tool_call_function_arguments ++ f } := rfl
    rw [h1, ih]
    simp [joinAll, String.append_assoc]

/-- C4: a delta frame carrying a function-arguments fragment appends the
fragment to the in-progress tool call, so a sequence of fragment frames
concatenates the fragments in arrival order; a frame with
`finish_reason = "tool_calls"` finalizes the in-progress `ToolCall`
(with the accumulated arguments) and resets the accumulation state; in
particular the fragments `\x7b"a":` then `1\x7d` followed by the finish
frame yield one ToolCall whose arguments string is exactly
`\x7b"a":1\x7d`. -/
theorem streaming_argument_fragments (st : StreamState) (s : String)
    (frags : List String) :
    processJson st (argFragmentFrame s) =
      { st with tool_call_function_arguments :=
          st.tool_call_function_arguments ++ s } ∧
    (frags.map argFragmentFrame).foldl processJson st =
      { st with tool_call_function_arguments :=
          st.tool_call_function_arguments ++ joinAll frags } ∧
    processJson st toolCallsFinishFrame =
      { st with
        tool_calls := st.tool_calls ++
          [⟨st.tool_call_id, st.tool_call_type,
            ⟨st.tool_call_function_name, st.tool_call_function_arguments⟩⟩],
        tool_call_id := "", tool_call_type := "",
        tool_call_function_name := "", tool_call_function_arguments := "" } ∧
    parse_streaming_response
        ("data: \x7b\"choices\":[\x7b\"delta\":\x7b\"tool_calls\":[\x7b\"id\":\"call_1\",\"type\":\"function\",\"function\":\x7b\"name\":\"f\",\"arguments\":\"\x7b\\\"a\\\":\"\x7d\x7d]\x7d\x7d]\x7d\n" ++
         "data: \x7b\"choices\":[\x7b\"delta\":\x7b\"tool_calls\":[\x7b\"function\":\x7b\"arguments\":\"1\x7d\"\x7d\x7d]\x7d\x7d]\x7d\n" ++
         "data: \x7b\"choices\":[\x7b\"delta\":\x7b\x7d,\"finish_reason\":\"tool_calls\"\x7d]\x7d\n" ++
         "data: [DONE]\n") =
      .ok { role := "assistant", content := none, name := none, tool_call_id := none,
            tool_calls := some [⟨"call_1", "function", ⟨"f", "\x7b\"a\":1\x7d"⟩⟩] } :=
  ⟨rfl, foldl_argFragmentFrame frags st, rfl, rfl⟩

/-! ## Claim C3: a second completed tool call is fatal -/

theorem processToolCallValue_tool_calls (st : StreamState) (tv : Json) :
    (processToolCallValue st tv).tool_calls = st.tool_calls := by
  unfold processToolCallValue
  repeat' split
  all_goals rfl

theorem foldl_processToolCallValue_tool_calls (arr : List Json) :
    ∀ st : StreamState, (arr.foldl processToolCallValue st).tool_calls = st.tool_calls := by
  induction arr with
  | nil => intro st; rfl
  | cons tv rest ih =>
    intro st
    rw [List.foldl_cons, ih, processToolCallValue_tool_calls]

theorem processDelta_tool_calls (st : StreamState) (delta : Json) :
    (processDelta st delta).tool_calls = st.tool_calls := by
  unfold processDelta
  cases (delta.get "tool_calls").bind Json.asArr with
  | none => split <;> rfl
  | some arr =>
    rw [foldl_processToolCallValue_tool_calls]
    split <;> rfl

theorem processFirstChoiceDelta_tool_calls (st : StreamState) (fc : Json) :
    (processFirstChoiceDelta st fc).tool_calls = st.tool_calls := by
  unfold processFirstChoiceDelta
  cases fc.get "delta" with
  | none => rfl
  | some d => exact processDelta_tool_calls st d

theorem processJson_tool_calls_length (st : StreamState) (j : Json) :
    (processJson st j).tool_calls.length =
      st.tool_calls.length + (if jsonFinishesToolCall j then 1 else 0) := by
  unfold processJson jsonFinishesToolCall
  cases hch : j.get "choices" with
  | none => simp [hch]
  | some choices =>
    cases hfc : choices.getIdx 0 with
    | none => simp [hch, hfc]
    | some fc =>
      cases hfr : (fc.get "finish_reason").bind Json.asStr with
      | none =>
        simp [hch, hfc, hfr, processFirstChoiceDelta_tool_calls]
      | some fr =>
        by_cases hb : (fr == "tool_calls") = true
        · simp [hch, hfc, hfr, hb, pushToolCall, processFirstChoiceDelta_tool_calls]
        · simp only [Bool.not_eq_true] at hb
          simp [hch, hfc, hfr, hb, processFirstChoiceDelta_tool_calls]

theorem processLine_tool_calls_length (st : StreamState) (l : String) :
    (processLine st l).tool_calls.length =
      st.tool_calls.length + (if lineCompletesToolCall l then 1 else 0) := by
  unfold processLine lineCompletesToolCall
  cases h : dataOfLine l with
  | none => simp
  | some j => simpa using processJson_tool_calls_length st j

theorem foldl_processLine_tool_calls (ls : List String) :
    ∀ st : StreamState,
      (ls.foldl processLine st).tool_calls.length =
        st.tool_calls.length + ls.countP lineCompletesToolCall := by
  induction ls with
  | nil => intro st; simp
  | cons l rest ih =>
    intro st
    rw [List.foldl_cons, ih, processLine_tool_calls_length, List.countP_cons]
    omega

/-- C3: at most one tool call is produced per reconstructed assistant
turn.  If the frame sequence completes a second tool call (two or more
lines carry `finish_reason = "tool_calls"`), `parse_streaming_response`
hits the `panic!` — a fatal, unrecoverable outcome — instead of
returning a message or a recoverable error; and every normally returned
message carries at most one tool call. -/
theorem parse_streaming_second_tool_call_fatal (s : String) :
    (2 ≤ (rustLines s).countP lineCompletesToolCall →
      parse_streaming_response s = .fatal "Tool calls cannot be more than one!") ∧
    (∀ (m : Message) (tcs : List ToolCall),
      parse_streaming_response s = .ok m → m.tool_calls = some tcs →
        tcs.length ≤ 1) := by
  have hlen : ((rustLines s).foldl processLine initialStreamState).tool_calls.length =
      (rustLines s).countP lineCompletesToolCall := by
    simpa [initialStreamState] using
      foldl_processLine_tool_calls (rustLines s) initialStreamState
  constructor
  · intro h2
    have hgt : ((rustLines s).foldl processLine initialStreamState).tool_calls.length > 1 := by
      omega
    simp [parse_streaming_response, hgt]
  · intro m tcs hok htcs
    by_cases hgt : ((rustLines s).foldl processLine initialStreamState).tool_calls.length > 1
    · simp [parse_streaming_response, hgt] at hok
    · simp only [parse_streaming_response, hgt, if_false] at hok
      rw [StreamResult.ok.injEq] at hok
      subst hok
      simp only [Bool.not_eq_true] at htcs
      by_cases hemp :
          ((rustLines s).foldl processLine initialStreamState).tool_calls.isEmpty = true
      · simp [hemp] at htcs
      · simp only [Bool.not_eq_true] at hemp
        simp only [hemp, Bool.not_false, if_pos, Option.some.injEq] at htcs
        subst htcs
        omega

/-- C3 witness: a blob completing two tool calls is fatal. -/
theorem parse_streaming_second_tool_call_fatal_witness :
    parse_streaming_response
        ("data: \x7b\"choices\":[\x7b\"finish_reason\":\"tool_calls\"\x7d]\x7d\n" ++
         "data: \x7b\"choices\":[\x7b\"finish_reason\":\"tool_calls\"\x7d]\x7d\n" ++
         "data: [DONE]\n") =
      .fatal "Tool calls cannot be more than one!" :=
  (parse_streaming_second_tool_call_fatal
      ("data: \x7b\"choices\":[\x7b\"finish_reason\":\"tool_calls\"\x7d]\x7d\n" ++
       "data: \x7b\"choices\":[\x7b\"finish_reason\":\"tool_calls\"\x7d]\x7d\n" ++
       "data: [DONE]\n")).1 (by decide)

/-! ## Claim C2: oldest pending tool call -/

theorem str_beq_comm (a b : String) : (a == b) = (b == a) := by
  by_cases h : a = b
  · subst h; rfl
  · have h2 : ¬ b = a := fun e => h e.symm
    apply Bool.eq_iff_iff.mpr
    constructor <;> intro hx
    · exact absurd (eq_of_beq hx) h
    · exact absurd (eq_of_beq hx) h2

theorem specPending_nil_of_no_calls (ms : List Message)
    (h : ∀ m ∈ ms, m.tool_calls = none) : specPendingToolCallIds ms = [] := by
  induction ms with
  | nil => rfl
  | cons m rest ih =>
    have hm : m.tool_calls = none := h m (List.mem_cons_self m rest)
    have hrest := ih (fun x hx => h x (List.mem_cons_of_mem m hx))
    simp [specPendingToolCallIds, toolCallIdsOf, hm, hrest]

theorem foldl_pendingStep (ms : List Message) :
    ∀ acc : List String,
      (∀ m ∈ ms, m.tool_calls = none ∨ m.tool_call_id = none) →
      ms.foldl pendingStep acc =
        acc.filter (fun id => !(answeredIn id ms)) ++ specPendingToolCallIds ms := by
  induction ms with
  | nil =>
    intro acc _
    simp [answeredIn, specPendingToolCallIds]
  | cons m rest ih =>
    intro acc hsep
    have hm := hsep m (List.mem_cons_self m rest)
    have hrest : ∀ x ∈ rest, x.tool_calls = none ∨ x.tool_call_id = none :=
      fun x hx => hsep x (List.mem_cons_of_mem m hx)
    rw [List.foldl_cons, ih (pendingStep acc m) hrest]
    show _ = acc.filter (fun id => !(answeredIn id (m :: rest))) ++
      ((toolCallIdsOf m).filter (fun id => !(answeredIn id rest)) ++ specPendingToolCallIds rest)
    rw [← List.append_assoc]
    congr 1
    unfold pendingStep
    cases hid : m.tool_call_id with
    | none =>
      rw [List.filter_append]
      congr 1
      apply List.filter_congr
      intro id _
      simp [answeredIn, hid]
    | some tid =>
      rcases hm with htc | htid
      · simp only [toolCallIdsOf, htc, List.append_nil, List.filter_nil,
          List.filter_filter]
        apply List.filter_congr
        intro id _
        simp only [answeredIn, List.any_cons, hid, Bool.not_or, bne]
        rw [show ((some tid == some id) : Bool) = (tid == id) from rfl,
          str_beq_comm tid id]
        exact Bool.and_comm _ _
      · rw [hid] at htid
        exact absurd htid (by simp)

/-- C2: with a chat loaded, `get_last_pending_tool_call_id` returns
exactly the head of the list of emitted tool-call ids (in emission =
FIFO order) that no strictly later message answers via `tool_call_id`
— so it is `none` on a conversation with zero tool calls and the
oldest unanswered id otherwise, regardless of the order in which other
tool calls were answered.  The hypothesis is the data-model invariant
(spec.md §3) that no message carries both `tool_calls` and a
`tool_call_id`. -/
theorem oldest_pending_tool_call (chat : Chat)
    (hsep : ∀ m ∈ chat.messages, m.tool_calls = none ∨ m.tool_call_id = none) :
    get_last_pending_tool_call_id (some chat) =
      .ok (specPendingToolCallIds chat.messages).head? ∧
    ((∀ m ∈ chat.messages, m.tool_calls = none) →
      get_last_pending_tool_call_id (some chat) = .ok none) := by
  have key : chat.messages.foldl pendingStep [] = specPendingToolCallIds chat.messages := by
    simpa using foldl_pendingStep chat.messages [] hsep
  have hmain : get_last_pending_tool_call_id (some chat) =
      .ok (specPendingToolCallIds chat.messages).head? := by
    rw [show get_last_pending_tool_call_id (some chat) =
        (match (chat.messages.foldl pendingStep []).head? with
          | some i => (Except.ok (some i) : Except ChatError (Option String))
          | none => Except.ok none) from rfl, key]
    cases hh : (specPendingToolCallIds chat.messages).head? <;> simp [hh]
  refine ⟨hmain, fun hall => ?_⟩
  rw [hmain, specPending_nil_of_no_calls chat.messages hall]
  rfl

/-- C2 witness: one assistant message emits tool calls `a`, `b`, `c`;
`c` and then `b` are answered out of order; the oldest pending id is
`a`.  And a conversation whose messages carry no tool calls yields
`none`. -/
theorem oldest_pending_tool_call_witness :
    get_last_pending_tool_call_id (some
      { messages :=
          [{ role := "assistant", content := none, name := none, tool_call_id := none,
             tool_calls := some
               [⟨"a", "function", ⟨"f", "\x7b\x7d"⟩⟩,
                ⟨"b", "function", ⟨"g", "\x7b\x7d"⟩⟩,
                ⟨"c", "function", ⟨"h", "\x7b\x7d"⟩⟩] },
           { role := "tool", content := some (.simple "out-c"), name := some "h",
             tool_call_id := some "c", tool_calls := none },
           { role := "tool", content := some (.simple "out-b"), name := some "g",
             tool_call_id := some "b", tool_calls := none }] }) = .ok (some "a") ∧
    get_last_pending_tool_call_id (some
      { messages := [Message.normal "user" (.simple "hi")] }) = .ok none :=
  ⟨(oldest_pending_tool_call
      { messages :=
          [{ role := "assistant", content := none, name := none, tool_call_id := none,
             tool_calls := some
               [⟨"a", "function", ⟨"f", "\x7b\x7d"⟩⟩,
                ⟨"b", "function", ⟨"g", "\x7b\x7d"⟩⟩,
                ⟨"c", "function", ⟨"h", "\x7b\x7d"⟩⟩] },
           { role := "tool", content := some (.simple "out-c"), name := some "h",
             tool_call_id := some "c", tool_calls := none },
           { role := "tool", content := some (.simple "out-b"), name := some "g",
             tool_call_id := some "b", tool_calls := none }] } (by decide)).1,
   (oldest_pending_tool_call
      { messages := [Message.normal "user" (.simple "hi")] } (by decide)).2 (by decide)⟩

/-! ## Claim C6: FIFO eviction keeps exactly the last `MAX_LINES` entries -/

theorem drop_cons_shift {α : Type} (l x : List α) (k : Nat) (hl : l ≠ []) :
    (l.drop 1 ++ x).drop k = (l ++ x).drop (k + 1) := by
  cases l with
  | nil => exact absurd rfl hl
  | cons a l2 => simp

theorem pushMany_spec (items : List (StreamKind × String × Nat)) :
    ∀ (bf buf : List TimedLine), bf.length ≤ MAX_LINES →
      pushMany bf items = some buf →
      buf.length = min MAX_LINES (bf.length + items.length) ∧
      buf = (bf ++ items.filterMap storedEntry).drop
        (bf.length + items.length - MAX_LINES) := by
  have hM : MAX_LINES = 128 := rfl
  induction items with
  | nil =>
    intro bf buf hle h
    simp only [pushMany, Option.some.injEq] at h
    subst h
    refine ⟨by simp; omega, ?_⟩
    have h0 : bf.length + ([] : List (StreamKind × String × Nat)).length - MAX_LINES = 0 := by
      simp; omega
    rw [h0]
    simp
  | cons it rest ih =>
    intro bf buf hle h
    obtain ⟨kind, line, now⟩ := it
    simp only [pushMany] at h
    cases hpb : push_bounded bf kind line now with
    | none =>
      simp only [hpb] at h
      exact Option.noConfusion h
    | some bf2 =>
      simp only [hpb] at h
      simp only [push_bounded] at hpb
      cases hsl : storedLine line with
      | none =>
        simp only [hsl] at hpb
        exact Option.noConfusion hpb
      | some sl =>
        simp only [hsl, Option.some.injEq] at hpb
        have hfm : (((kind, line, now) :: rest).filterMap storedEntry) =
            { capturedAt := now, kind := kind, line := sl } :: rest.filterMap storedEntry := by
          simp [List.filterMap_cons, storedEntry, hsl]
        by_cases hfull : bf.length = MAX_LINES
        · have hbf2 : bf2 = bf.drop 1 ++ [⟨now, kind, sl⟩] := by
            rw [← hpb]; simp [hfull]
          have hbfne : bf ≠ [] := by
            intro he; rw [he] at hfull; simp [hM] at hfull
          have hbl2 : bf2.length = MAX_LINES := by
            rw [hbf2]; simp; omega
          obtain ⟨ihlen, iheq⟩ := ih bf2 buf (by omega) h
          refine ⟨?_, ?_⟩
          · rw [ihlen, hbl2]; simp; omega
          · rw [iheq, hfm, hbf2, List.append_assoc, List.singleton_append,
              drop_cons_shift _ _ _ hbfne]
            congr 1
            simp
            omega
        · have hbf2 : bf2 = bf ++ [⟨now, kind, sl⟩] := by
            rw [← hpb]; simp [hfull]
          have hbl2 : bf2.length = bf.length + 1 := by rw [hbf2]; simp
          obtain ⟨ihlen, iheq⟩ := ih bf2 buf (by omega) h
          refine ⟨?_, ?_⟩
          · rw [ihlen, hbl2]; simp; omega
          · rw [iheq, hfm, hbf2, List.append_assoc, List.singleton_append]
            congr 1
            simp
            omega

/-- C6: starting from an empty buffer, after any sequence of successful
pushes of at least `MAX_LINES` (128) lines the buffer holds exactly the
stored forms of the last 128 pushed lines, in arrival order, and its
length never exceeds 128 (each push at capacity evicts the single
oldest entry before inserting). -/
theorem bounded_buffer_last_N (items : List (StreamKind × String × Nat))
    (buf : List TimedLine) (hpush : pushMany [] items = some buf) :
    buf.length ≤ MAX_LINES ∧
    (MAX_LINES ≤ items.length →
      buf = (items.filterMap storedEntry).drop (items.length - MAX_LINES) ∧
      buf.length = MAX_LINES) := by
  obtain ⟨hlen, heq⟩ := pushMany_spec items [] buf (by simp) hpush
  refine ⟨by omega, fun hge => ⟨?_, by omega⟩⟩
  simpa using heq

/-- C6 witness: 129 pushes of the line `x` with timestamps 0..128 leave
exactly the 128 entries with timestamps 1..128. -/
theorem bounded_buffer_last_N_witness :
    ((List.range 129).drop 1).map
        (fun i => ({ capturedAt := i, kind := .stdout, line := "x" } : TimedLine)) =
      (((List.range 129).map
          (fun i => ((.stdout : StreamKind), "x", i))).filterMap storedEntry).drop
        (((List.range 129).map (fun i => ((.stdout : StreamKind), "x", i))).length -
          MAX_LINES) ∧
    (((List.range 129).drop 1).map
        (fun i => ({ capturedAt := i, kind := .stdout, line := "x" } : TimedLine))).length =
      MAX_LINES :=
  (bounded_buffer_last_N
      ((List.range 129).map (fun i => ((.stdout : StreamKind), "x", i)))
      (((List.range 129).drop 1).map
        (fun i => ({ capturedAt := i, kind := .stdout, line := "x" } : TimedLine)))
      (by decide)).2 (by decide)

end OpenAiClient
